import Mathlib

/-! Shallow embedding of the dim-aegis-wishlist generator.

Sources embedded: `src/match_items.py` (name normalization, search variants,
candidate scoring and caching, weapon/perk matching), `src/bungie_api.py`
(catalog substring search and weapon/perk classification),
`src/sheet_parser.py` (perk-cell parsing), `src/config_manager.py`
(tier policy) and `src/wishlist_generator.py` (roll expansion and output).

Modelling conventions:
* Python strings are Lean `String`s; the inputs handled by this program are
  ASCII, so `str.lower` is modelled by `Char.toLower`.  String manipulation
  is written structurally over `List Char` so that every definition
  evaluates by kernel reduction.
* Python floats are modelled as exact rationals `ℚ`.  The similarity values
  the program produces are ratios of string lengths, which are bounded far
  away from the thresholds 0.8 and 0.9 relative to double precision, so
  exact comparison agrees with float comparison on all reachable inputs.
* `list.sort(key=k, reverse=True)` is modelled by the stable insertion sort
  `stableSort`: descending in the key, ties keep list order, which is the
  documented semantics of Python's stable sort with `reverse=True`.
* `list(set(xs))` iterates in unspecified order; it is modelled by
  `List.dedup`.  Every use is order-insensitive or immediately sorted.
* A Python dict comprehension keyed by hash keeps the first-occurrence key
  order and the last-occurrence value; `pyDictDedupe` reproduces that.
* The catalog (`bungie_cache.json` manifest) is a list of `ItemDef`s in
  manifest iteration order; `search_destiny_items` scans it.
-/

namespace DimAegis

/-- ASCII model of Python `str.lower` on characters of a string. -/
def pyLowerL (l : List Char) : List Char := l.map Char.toLower

/-- Python `str.lower`. -/
def pyLower (s : String) : String := ⟨pyLowerL s.data⟩

/-- Boolean list-prefix test. -/
def isPrefB : List Char → List Char → Bool
  | [], _ => true
  | _ :: _, [] => false
  | a :: as, b :: bs => a == b && isPrefB as bs

/-- Boolean contiguous-substring test: Python `needle in hay` on strings. -/
def listInfixB (needle : List Char) : List Char → Bool
  | [] => needle.isEmpty
  | c :: rest => isPrefB needle (c :: rest) || listInfixB needle rest

/-- Python `needle in hay` for strings. -/
def isSubB (needle hay : String) : Bool := listInfixB needle.data hay.data

/-- Characters of a list before the first occurrence of `sep` (everything if
`sep` does not occur). -/
def takeUntilSep (sep : List Char) : List Char → List Char
  | [] => []
  | c :: rest => if isPrefB sep (c :: rest) then [] else c :: takeUntilSep sep rest

/-- Python `s.split(sep)[0]` for a nonempty separator. -/
def splitHead (sep s : String) : String := ⟨takeUntilSep sep.data s.data⟩

/-- Python `s.split(c)` for a single-character separator. -/
def splitChar (sep : Char) : List Char → List (List Char)
  | [] => [[]]
  | c :: rest =>
      if c == sep then [] :: splitChar sep rest
      else
        match splitChar sep rest with
        | [] => [[c]]
        | w :: ws => (c :: w) :: ws

/-- Python `s.strip()`: drop leading and trailing whitespace. -/
def pyStrip (l : List Char) : List Char :=
  ((l.dropWhile Char.isWhitespace).reverse.dropWhile Char.isWhitespace).reverse

/-- The whitespace-separated words of a character list (`cur` is the
reversed word being accumulated): Python `s.split()`. -/
def wordsAux (cur : List Char) : List Char → List (List Char)
  | [] => if cur.isEmpty then [] else [cur.reverse]
  | c :: rest =>
      if c.isWhitespace then
        if cur.isEmpty then wordsAux [] rest else cur.reverse :: wordsAux [] rest
      else wordsAux (c :: cur) rest

/-- Interleave a separator between character lists and flatten. -/
def joinSepL (sep : List Char) : List (List Char) → List Char
  | [] => []
  | [w] => w
  | w :: ws => w ++ sep ++ joinSepL sep ws

/-- Python `sep.join(strings)`. -/
def pyJoin (sep : String) (l : List String) : String :=
  ⟨joinSepL sep.data (l.map String.data)⟩

/-- Python string `<` (code-point lexicographic). -/
def strLtB : List Char → List Char → Bool
  | [], [] => false
  | [], _ :: _ => true
  | _ :: _, [] => false
  | a :: as, b :: bs =>
      if a.toNat < b.toNat then true
      else if b.toNat < a.toNat then false
      else strLtB as bs

/-- Strict lexicographic order on Python sort keys `(bool, float)`
(`False < True` on the first component). -/
def keyLT (x y : Bool × ℚ) : Bool :=
  (!x.1 && y.1) || (x.1 == y.1 && decide (x.2 < y.2))

/-- One step of a stable sort: `a` comes from later in the original list, so
it is inserted after every element that strictly precedes it (`prec b a`)
and before every tie. -/
def insertStable (prec : α → α → Bool) (a : α) : List α → List α
  | [] => [a]
  | b :: bs => if prec b a then b :: insertStable prec a bs else a :: b :: bs

/-- Stable sort; `prec x y = true` means `x` must come strictly before `y`.
Ties keep original order, matching Python's stable `list.sort`. -/
def stableSort (prec : α → α → Bool) : List α → List α
  | [] => []
  | a :: as => insertStable prec a (stableSort prec as)

/-- Model of `ItemMatcher.normalize_name`: lowercase, map `_`/`-`/`.` to spaces,
collapse whitespace runs, trim. -/
def normalize_name (name : String) : String :=
  let lowered := pyLowerL name.data
  let replaced := lowered.map (fun c => if c == '_' || c == '-' || c == '.' then ' ' else c)
  ⟨joinSepL [' '] (wordsAux [] replaced)⟩

/-- The `version_patterns` list of `ItemMatcher.get_search_variants`. -/
def version_patterns : List String :=
  ["_v", " v", "version ", "_ver", " ver", ".0.", ".1.", ".2.", ".3.", ".4.", ".5."]

/-- The `base_name` computed by `ItemMatcher.get_search_variants`: the loop
takes the first pattern (in `version_patterns` order) occurring in the
lowercased name and splits the original, case-sensitively, at its first
occurrence. -/
def base_name_of (name : String) : String :=
  match version_patterns.find? (fun pat => isSubB pat (pyLower name)) with
  | some pat => splitHead pat name
  | none => name

/-- Model of `ItemMatcher.get_search_variants` (`list(set(...))` modelled by
`List.dedup`; the set's iteration order is unspecified and never relied
upon). -/
def get_search_variants (name : String) : List String :=
  let base_name := base_name_of name
  ([name] ++ (if base_name ≠ name then [base_name] else []) ++
      [normalize_name name] ++
      (if base_name ≠ name then [normalize_name base_name] else [])).dedup

/-- Model of `ItemMatcher.compare_names`: `(exact_match, similarity_score)`. -/
def compare_names (name1 name2 : String) : Bool × ℚ :=
  let norm1 := normalize_name name1
  let norm2 := normalize_name name2
  if norm1 = norm2 then (true, 1)
  else if isSubB norm1 norm2 || isSubB norm2 norm1 then
    (false, ((min norm1.length norm2.length : ℕ) : ℚ) /
      ((max norm1.length norm2.length : ℕ) : ℚ))
  else (false, 0)

/-- A catalog item: the manifest fields the program reads.  Keys that the
code reads through `.get(...)` without a constant default are `Option`s;
`name` and `description` are always read with default `''` and are plain
strings. -/
structure ItemDef where
  hash : Nat
  name : String
  description : String
  itemType : Option Int
  itemSubType : Option Int
  itemTypeDisplayName : Option String
deriving DecidableEq, Inhabited

/-- Keys of the `weapon_subtypes` table in `BungieAPI.is_weapon`. -/
def weapon_subtype_codes : List Int :=
  [6, 7, 8, 9, 10, 11, 12, 13, 14, 17, 18, 19, 20, 21, 22, 23, 24, 25, 26,
   27, 28, 29, 30, 31, 32, 33, 34, 35, 36, 37, 38, 39, 40, 41, 42, 43, 44,
   45, 46, 47, 48, 49, 50, 51, 52, 53, 54, 55]

/-- Values of the `weapon_subtypes` table in `BungieAPI.is_weapon`. -/
def weapon_subtype_names : List String :=
  ["Auto Rifle", "Hand Cannon", "Pulse Rifle", "Scout Rifle", "Fusion Rifle",
   "Sniper Rifle", "Shotgun", "Machine Gun", "Rocket Launcher",
   "Submachine Gun", "Linear Fusion Rifle", "Grenade Launcher", "Trace Rifle",
   "Bow", "Glaive", "Sword", "Special Grenade Launcher",
   "Heavy Grenade Launcher", "Stasis Auto Rifle", "Stasis Hand Cannon",
   "Stasis Pulse Rifle", "Stasis Scout Rifle", "Stasis Fusion Rifle",
   "Stasis Sniper Rifle", "Stasis Shotgun", "Stasis Machine Gun",
   "Stasis Rocket Launcher", "Stasis Submachine Gun",
   "Stasis Linear Fusion Rifle", "Stasis Grenade Launcher",
   "Stasis Trace Rifle", "Stasis Bow", "Stasis Glaive", "Strand Auto Rifle",
   "Strand Hand Cannon", "Strand Pulse Rifle", "Strand Scout Rifle",
   "Strand Fusion Rifle", "Strand Sniper Rifle", "Strand Shotgun",
   "Strand Machine Gun", "Strand Rocket Launcher", "Strand Submachine Gun",
   "Strand Linear Fusion Rifle", "Strand Grenade Launcher",
   "Strand Trace Rifle", "Strand Bow", "Strand Glaive"]

/-- Keyword fallback of `BungieAPI.is_weapon`. -/
def weapon_keywords : List String :=
  ["rifle", "cannon", "launcher", "sword", "shotgun", "bow", "glaive", "smg"]

/-- Model of `BungieAPI.is_weapon`. -/
def is_weapon (item : ItemDef) : Bool :=
  let display_name := pyLower (item.itemTypeDisplayName.getD "")
  let fallback := weapon_keywords.any (fun k => isSubB k display_name)
  if item.itemType == some 3 then
    if (match item.itemSubType with
        | some c => weapon_subtype_codes.contains c
        | none => false) then
      true
    else if weapon_subtype_names.any (fun n => isSubB (pyLower n) display_name) then
      true
    else fallback
  else fallback

/-- Weapon-context keywords of `BungieAPI.is_perk`. -/
def perk_keywords : List String :=
  ["weapon", "rounds", "magazine", "reload", "precision", "damage",
   "final blow", "kills", "defeating", "precision hits", "burst"]

/-- Model of `BungieAPI.is_perk`. -/
def is_perk (item : ItemDef) : Bool :=
  if item.itemTypeDisplayName == some "Trait" then true
  else if !(item.itemType == some 19 || item.itemType == some 20) then false
  else perk_keywords.any (fun k => isSubB k (pyLower item.description))

/-- Model of `BungieAPI.search_destiny_items`: case-insensitive substring search over
catalog display names, in catalog order. -/
def search_destiny_items (catalog : List ItemDef) (search_term : String) :
    List ItemDef :=
  catalog.filter (fun item => isSubB (pyLower search_term) (pyLower item.name))

/-- Worker for `pyDictDedupe`: `seen` are hashes already emitted, `orig` is
the full original list (searched backwards for the last value per hash). -/
def dictDedupeGo (orig : List ItemDef) (seen : List Nat) :
    List ItemDef → List ItemDef
  | [] => []
  | x :: xs =>
      if seen.contains x.hash then dictDedupeGo orig seen xs
      else
        ((orig.reverse.find? (fun y => y.hash == x.hash)).getD x) ::
          dictDedupeGo orig (x.hash :: seen) xs

/-- Python `{m['hash']: m for m in l}.values()`: one entry per hash, at the
position of that hash's first occurrence, carrying the value of its last
occurrence. -/
def pyDictDedupe (l : List ItemDef) : List ItemDef := dictDedupeGo l [] l

/-- The mutable fields of `ItemMatcher` that matching reads and writes.
Dicts are insertion-shadowing association lists; sets are lists grown by
`addToSet`. -/
structure MatcherState where
  weapon_matches : List (String × List ItemDef)
  perk_matches : List (String × List ItemDef)
  missing_weapons : List String
  missing_perks : List String
deriving DecidableEq

/-- Fresh `ItemMatcher` state. -/
def initState : MatcherState := ⟨[], [], [], []⟩

/-- Add an element to a modelled Python set of strings. -/
def addToSet (s : List String) (x : String) : List String :=
  if s.contains x then s else s ++ [x]

/-- Sort order of both match finders: Python
`sort(key=lambda x: (x[1], x[2]), reverse=True)` - a scored candidate
strictly precedes another iff its `(exact, similarity)` key is strictly
greater. -/
def scoredPrec (x y : ItemDef × Bool × ℚ) : Bool := keyLT y.2 x.2

/-- The accumulated, hash-deduplicated weapon candidates for one raw name
(`find_weapon_matches` before scoring): one catalog query per search
variant, filtered to weapons. -/
def weapon_pool (catalog : List ItemDef) (weapon_name : String) :
    List ItemDef :=
  pyDictDedupe ((get_search_variants weapon_name).flatMap
    (fun variant => (search_destiny_items catalog variant).filter is_weapon))

/-- The scoring loop shared by both match finders: keep a candidate iff
`exact_match or similarity > θ`, remembering its score tuple. -/
def scoreFilter (raw_name : String) (θ : ℚ) (pool : List ItemDef) :
    List (ItemDef × Bool × ℚ) :=
  pool.filterMap (fun m =>
    let es := compare_names raw_name m.name
    if es.1 || decide (es.2 > θ) then some (m, es.1, es.2) else none)

/-- Scored weapon candidates kept by the threshold test
`exact_match or similarity > 0.8`. -/
def weapon_scored (catalog : List ItemDef) (weapon_name : String) :
    List (ItemDef × Bool × ℚ) :=
  scoreFilter weapon_name (4 / 5) (weapon_pool catalog weapon_name)

/-- Model of `ItemMatcher.find_weapon_matches`.  Returns the match list, the updated
state, and the list of search queries this call issued to the catalog. -/
def find_weapon_matches (catalog : List ItemDef) (st : MatcherState)
    (weapon_name : String) : List ItemDef × MatcherState × List String :=
  match st.weapon_matches.find? (fun p => p.1 == weapon_name) with
  | some p => (p.2, st, [])
  | none =>
      let matchesL :=
        (stableSort scoredPrec (weapon_scored catalog weapon_name)).map
          (fun t => t.1)
      (matchesL,
        { st with weapon_matches := (weapon_name, matchesL) :: st.weapon_matches },
        get_search_variants weapon_name)

/-- The perk candidates for one raw name: a single catalog query with the
raw name itself, filtered to perks (`find_perk_matches` issues no variant
fan-out and no hash-dedup step). -/
def perk_pool (catalog : List ItemDef) (perk_name : String) : List ItemDef :=
  (search_destiny_items catalog perk_name).filter is_perk

/-- Scored perk candidates kept by the stricter threshold test
`exact_match or similarity > 0.9`. -/
def perk_scored (catalog : List ItemDef) (perk_name : String) :
    List (ItemDef × Bool × ℚ) :=
  scoreFilter perk_name (9 / 10) (perk_pool catalog perk_name)

/-- Model of `ItemMatcher.find_perk_matches`.  Returns the match list, the updated
state, and the list of search queries this call issued to the catalog. -/
def find_perk_matches (catalog : List ItemDef) (st : MatcherState)
    (perk_name : String) : List ItemDef × MatcherState × List String :=
  match st.perk_matches.find? (fun p => p.1 == perk_name) with
  | some p => (p.2, st, [])
  | none =>
      let matchesL :=
        (stableSort scoredPrec (perk_scored catalog perk_name)).map
          (fun t => t.1)
      (matchesL,
        { st with perk_matches := (perk_name, matchesL) :: st.perk_matches },
        [perk_name])

namespace Sheets

/-- Model of `sheet_parser.WeaponRoll`: one raw spreadsheet entry; `perks` is already
the concatenation of the two sheet perk columns, built by `parse_tab`. -/
structure WeaponRoll where
  name : String
  tier : String
  perks : List String
deriving DecidableEq

/-- Model of `SheetParser.parse_perks`: split a cell at newlines, strip each piece,
drop empties. -/
def parse_perks (perk_string : String) : List String :=
  if perk_string = "" then []
  else
    ((splitChar '\n' perk_string.data).map
        (fun w => (⟨pyStrip w⟩ : String))).filter (fun p => p ≠ "")

/-- The perk-list assembly of `SheetParser.parse_tab` (lines 141-145):
column-1 perks then column-2 perks, concatenated in cell order. -/
def row_perks (perk1 perk2 : String) : List String :=
  (if perk1 ≠ "" then parse_perks perk1 else []) ++
    (if perk2 ≠ "" then parse_perks perk2 else [])

end Sheets

/-- A matched perk record built by `ItemMatcher.match_weapon`. -/
structure MatchedPerk where
  name : String
  hash : Nat
  description : String
  column : Nat
deriving DecidableEq

/-- The matched-weapon record returned by `ItemMatcher.match_weapon`. -/
structure MatchedWeapon where
  name : String
  hash : Nat
  type : String
  tier : String
  perks_column1 : List MatchedPerk
  perks_column2 : List MatchedPerk
deriving DecidableEq

/-- One per-column loop of `match_weapon`: look every listed name up with
`find_perk_matches`, keep the first match of each, record misses in
`missing_perks`.  The debug-only re-search on a miss has no effect on any
result or state and is omitted. -/
def process_perk_column (catalog : List ItemDef) (col : Nat) :
    MatcherState → List String → List MatchedPerk × MatcherState
  | st, [] => ([], st)
  | st, perk :: rest =>
      let r := find_perk_matches catalog st perk
      match r.1 with
      | [] =>
          process_perk_column catalog col
            { r.2.1 with missing_perks := addToSet r.2.1.missing_perks perk } rest
      | pm :: _ =>
          let tail := process_perk_column catalog col r.2.1 rest
          (⟨perk, pm.hash, pm.description, col⟩ :: tail.1, tail.2)

/-- Model of `ItemMatcher.match_weapon`.  Returns the matched weapon (or `none`), the
updated state, and the perk names attempted for output column 1 and output
column 2 respectively. -/
def match_weapon (catalog : List ItemDef) (st : MatcherState)
    (weapon : Sheets.WeaponRoll) :
    Option MatchedWeapon × MatcherState × List String × List String :=
  let fw := find_weapon_matches catalog st weapon.name
  if fw.1 = [] then
    (none,
      { fw.2.1 with missing_weapons := addToSet fw.2.1.missing_weapons weapon.name },
      [], [])
  else
    let weapon_match := fw.1.headI
    let col1_names := weapon.perks.take (weapon.perks.length / 2)
    let col2_names := weapon.perks.drop (weapon.perks.length / 2)
    let c1 := process_perk_column catalog 1 fw.2.1 col1_names
    let c2 := process_perk_column catalog 2 c1.2 col2_names
    (some ⟨weapon.name, weapon_match.hash,
        weapon_match.itemTypeDisplayName.getD "Unknown", weapon.tier,
        c1.1, c2.1⟩,
      c2.2, col1_names, col2_names)

/-- Model of `config_manager.PerkOption`. -/
inductive PerkOption where
  | BOTH_COLUMNS
  | ANY_COLUMN
  | ANY_PERKS
deriving DecidableEq

/-- Model of `config_manager.TierConfig`. -/
structure TierConfig where
  tier : String
  perk_option : PerkOption
deriving DecidableEq

/-- Model of `ConfigManager.should_include_weapon`: the perk option of the first
config whose tier label matches, else `None`. -/
def should_include_weapon (tier : String) (configs : List TierConfig) :
    Option PerkOption :=
  match configs.find? (fun c => c.tier == tier) with
  | some c => some c.perk_option
  | none => none

namespace Wishlist

/-- Model of `wishlist_generator.Perk`. -/
structure Perk where
  name : String
  hash : Nat
  description : String
deriving DecidableEq

/-- Model of `wishlist_generator.WeaponRoll`. -/
structure WeaponRoll where
  name : String
  hash : Nat
  type : String
  tier : String
  perks_column1 : List Perk
  perks_column2 : List Perk
deriving DecidableEq

end Wishlist

/-- Python `sorted(set(l))` for strings: ascending code-point order over the
distinct elements. -/
def sortedSet (l : List String) : List String :=
  stableSort (fun a b => strLtB a.data b.data) l.dedup

/-- The single-perk lines `_format_weapon_rolls` adds when the perk option
allows any column (column 1 then column 2). -/
def single_lines (w : Wishlist.WeaponRoll) : List String :=
  w.perks_column1.map (fun p =>
      "dimwishlist:item=" ++ toString w.hash ++ "&perks=" ++ toString p.hash) ++
    w.perks_column2.map (fun p =>
      "dimwishlist:item=" ++ toString w.hash ++ "&perks=" ++ toString p.hash)

/-- The two-perk lines: cartesian product of column 1 and column 2. -/
def pair_lines (w : Wishlist.WeaponRoll) : List String :=
  w.perks_column1.flatMap (fun p1 => w.perks_column2.map (fun p2 =>
    "dimwishlist:item=" ++ toString w.hash ++ "&perks=" ++ toString p1.hash ++
      "," ++ toString p2.hash))

/-- The combination strings poured into the `all_combinations` set of
`WishlistGenerator._format_weapon_rolls`. -/
def all_combinations (perk_option : PerkOption) (w : Wishlist.WeaponRoll) :
    List String :=
  (if perk_option = PerkOption.ANY_COLUMN ∨ perk_option = PerkOption.ANY_PERKS
    then single_lines w else []) ++
    (if w.perks_column1 ≠ [] ∧ w.perks_column2 ≠ [] then pair_lines w else [])

/-- Model of `WishlistGenerator._format_weapon_rolls`. -/
def format_weapon_rolls (configs : List TierConfig) (w : Wishlist.WeaponRoll) :
    Option String :=
  match should_include_weapon w.tier configs with
  | none => none
  | some perk_option =>
      let header := w.name ++ " - Tier: " ++ w.tier
      let output := [header] ++
        (if perk_option = PerkOption.ANY_PERKS then
          ["dimwishlist:item=" ++ toString w.hash] else [])
      let combos := all_combinations perk_option w
      if combos ≠ [] then
        some (pyJoin "\n" (output ++ sortedSet combos) ++ "\n")
      else if perk_option = PerkOption.ANY_PERKS then
        some (pyJoin "\n" output ++ "\n")
      else none

/-- Model of `WishlistGenerator.generate_dim_wishlist`.  Matched-weapon dicts are
modelled directly as `Wishlist.WeaponRoll` records:
`process_matched_weapon` is the identity on them, since every perk dict
produced by `match_weapon` carries a `hash` key. -/
def generate_dim_wishlist (configs : List TierConfig)
    (matched_weapons : List Wishlist.WeaponRoll) : String :=
  let output := matched_weapons.filterMap (format_weapon_rolls configs)
  if output ≠ [] then pyJoin "\n" output else ""

/-- The retention condition as the specification words it: an exact
normalized match, or a normalized substring containment whose length ratio
strictly clears the class threshold. -/
def spec_retain (raw display : String) (θ : ℚ) : Prop :=
  normalize_name raw = normalize_name display ∨
    ((isSubB (normalize_name raw) (normalize_name display) ||
        isSubB (normalize_name display) (normalize_name raw)) = true ∧
      θ < ((min (normalize_name raw).length (normalize_name display).length : ℕ) : ℚ) /
        ((max (normalize_name raw).length (normalize_name display).length : ℕ) : ℚ))

/-! ### Generic facts about the stable sort and the sort-key order -/

theorem insertStable_perm (prec : α → α → Bool) (a : α) (l : List α) :
    (insertStable prec a l).Perm (a :: l) := by
  induction l with
  | nil => exact List.Perm.refl _
  | cons b bs ih =>
      by_cases h : prec b a = true
      · simpa [insertStable, h] using (ih.cons b).trans (List.Perm.swap a b bs)
      · simp [insertStable, h]

theorem stableSort_perm (prec : α → α → Bool) (l : List α) :
    (stableSort prec l).Perm l := by
  induction l with
  | nil => exact List.Perm.refl _
  | cons a as ih => exact (insertStable_perm prec a _).trans (ih.cons a)

theorem mem_stableSort (prec : α → α → Bool) (x : α) (l : List α) :
    x ∈ stableSort prec l ↔ x ∈ l :=
  (stableSort_perm prec l).mem_iff

theorem pairwise_insertStable (prec : α → α → Bool)
    (asym : ∀ x y, prec x y = true → prec y x = false)
    (negtrans : ∀ x y z, prec x y = false → prec y z = false → prec x z = false)
    (a : α) (l : List α) (h : l.Pairwise (fun x y => prec y x = false)) :
    (insertStable prec a l).Pairwise (fun x y => prec y x = false) := by
  induction l with
  | nil => simp [insertStable]
  | cons b bs ih =>
      rcases List.pairwise_cons.mp h with ⟨hb, hbs⟩
      by_cases hba : prec b a = true
      · simp only [insertStable, hba, if_pos]
        refine List.pairwise_cons.mpr ⟨?_, ih hbs⟩
        intro c hc
        rcases List.mem_cons.mp ((insertStable_perm prec a bs).mem_iff.mp hc) with
          rfl | hc'
        · exact asym _ _ hba
        · exact hb c hc'
      · have hba' : prec b a = false := by
          cases hv : prec b a
          · rfl
          · exact absurd hv hba
        simp only [insertStable, hba, if_neg, Bool.false_eq_true, not_false_iff]
        refine List.pairwise_cons.mpr ⟨?_, h⟩
        intro c hc
        rcases List.mem_cons.mp hc with rfl | hc'
        · exact hba'
        · exact negtrans c b a (hb c hc') hba'

theorem pairwise_stableSort (prec : α → α → Bool)
    (asym : ∀ x y, prec x y = true → prec y x = false)
    (negtrans : ∀ x y z, prec x y = false → prec y z = false → prec x z = false)
    (l : List α) :
    (stableSort prec l).Pairwise (fun x y => prec y x = false) := by
  induction l with
  | nil => simp [stableSort]
  | cons a as ih => exact pairwise_insertStable prec asym negtrans a _ ih

theorem filter_insertStable (prec : α → α → Bool) (p : α → Bool)
    (hp : ∀ x y, p x = true → p y = true → prec x y = false)
    (a : α) (l : List α) :
    (insertStable prec a l).filter p =
      if p a then a :: l.filter p else l.filter p := by
  induction l with
  | nil => cases hpa : p a <;> simp [insertStable, List.filter_cons, hpa]
  | cons b bs ih =>
      cases hba : prec b a with
      | false =>
          cases hpa : p a <;> simp [insertStable, hba, List.filter_cons, hpa]
      | true =>
          cases hpa : p a with
          | false => simp [insertStable, hba, List.filter_cons, ih, hpa]
          | true =>
              have hpb : p b = false := by
                cases hpb : p b
                · rfl
                · have hfa := hp b a hpb hpa
                  rw [hfa] at hba
                  exact absurd hba (by simp)
              simp [insertStable, hba, List.filter_cons, ih, hpa, hpb]

theorem filter_stableSort (prec : α → α → Bool) (p : α → Bool)
    (hp : ∀ x y, p x = true → p y = true → prec x y = false)
    (l : List α) :
    (stableSort prec l).filter p = l.filter p := by
  induction l with
  | nil => rfl
  | cons a as ih =>
      cases hpa : p a <;>
        simp [stableSort, filter_insertStable prec p hp, ih, List.filter_cons, hpa]

theorem keyLT_iff (x y : Bool × ℚ) :
    keyLT x y = true ↔ (x.1 = false ∧ y.1 = true) ∨ (x.1 = y.1 ∧ x.2 < y.2) := by
  rcases x with ⟨b1, q1⟩
  rcases y with ⟨b2, q2⟩
  cases b1 <;> cases b2 <;> simp [keyLT]

theorem keyLT_irrefl (x : Bool × ℚ) : keyLT x x = false := by
  rcases x with ⟨b, q⟩
  cases b <;> simp [keyLT]

theorem keyLT_asymm (x y : Bool × ℚ) (h : keyLT x y = true) : keyLT y x = false := by
  rcases x with ⟨b1, q1⟩
  rcases y with ⟨b2, q2⟩
  cases b1 <;> cases b2 <;> simp [keyLT] at h ⊢ <;> linarith

theorem keyLT_negtrans (x y z : Bool × ℚ) (hxy : keyLT x y = false)
    (hyz : keyLT y z = false) : keyLT x z = false := by
  rcases x with ⟨b1, q1⟩
  rcases y with ⟨b2, q2⟩
  rcases z with ⟨b3, q3⟩
  cases b1 <;> cases b2 <;> cases b3 <;> simp [keyLT] at hxy hyz ⊢ <;> linarith

theorem scoredPrec_asymm (x y : ItemDef × Bool × ℚ)
    (h : scoredPrec x y = true) : scoredPrec y x = false :=
  keyLT_asymm _ _ h

theorem scoredPrec_negtrans (x y z : ItemDef × Bool × ℚ)
    (hxy : scoredPrec x y = false) (hyz : scoredPrec y z = false) :
    scoredPrec x z = false :=
  keyLT_negtrans _ _ _ hyz hxy

/-! ### Claim C9: lookups are cached by raw name -/

/-- C9: a second `findCandidates` call with the same raw name and class
within one run returns the same result list as the first call and issues no
further catalog queries, for both the weapon and the perk matcher, and also
when the first call produced an empty result (the cache stores the empty
list and the membership test hits it). -/
theorem C9_find_candidates_cached (catalog : List ItemDef) (st : MatcherState)
    (n : String) :
    find_weapon_matches catalog (find_weapon_matches catalog st n).2.1 n =
      ((find_weapon_matches catalog st n).1,
        (find_weapon_matches catalog st n).2.1, []) ∧
    find_perk_matches catalog (find_perk_matches catalog st n).2.1 n =
      ((find_perk_matches catalog st n).1,
        (find_perk_matches catalog st n).2.1, []) := by
  constructor
  · cases h : st.weapon_matches.find? (fun p => p.1 == n) with
    | some p => simp [find_weapon_matches, h]
    | none => simp [find_weapon_matches, h, List.find?_cons]
  · cases h : st.perk_matches.find? (fun p => p.1 == n) with
    | some p => simp [find_perk_matches, h]
    | none => simp [find_perk_matches, h, List.find?_cons]

/-! ### Claim C2: perk lookups do not fan out over search variants -/

/-- C2 counterexample: for the perk name `"Outlaw_v1"`, `"Outlaw"` is one of
its search variants, yet `find_perk_matches` issues exactly one catalog
query, with the raw perk name only - the variant `"Outlaw"` is never
queried, so perk lookup does not perform the weapon-style variant fan-out. -/
theorem C2_counterexample :
    (find_perk_matches [] initState "Outlaw_v1").2.2 = ["Outlaw_v1"] ∧
    "Outlaw" ∈ get_search_variants "Outlaw_v1" ∧
    "Outlaw" ∉ (find_perk_matches [] initState "Outlaw_v1").2.2 := by
  refine ⟨by decide, by decide, ?_⟩
  have h : (find_perk_matches ([] : List ItemDef) initState "Outlaw_v1").2.2 =
      ["Outlaw_v1"] := by decide
  rw [h]
  decide

/-- C2 amended: on a cache miss (here: a fresh run state), a perk lookup
queries the catalog exactly once, with the raw perk name itself and no
variant fan-out; the weapon matcher, by contrast, issues one
`search_destiny_items` query per element of `get_search_variants`. -/
theorem C2_amended_single_perk_query (catalog : List ItemDef) (n : String) :
    (find_perk_matches catalog initState n).2.2 = [n] ∧
    (find_weapon_matches catalog initState n).2.2 = get_search_variants n := by
  constructor
  · simp [find_perk_matches, initState]
  · simp [find_weapon_matches, initState]

/-! ### Claim C4: search variants of version-tagged names -/

/-- C4 counterexample: the claim requires `searchVariants("IKELOS_SMG_v1.0.2")`
to contain `"ikelos"`, but it does not - the split happens at the first
occurrence of the pattern `"_v"` in the raw string, producing
`"IKELOS_SMG"`. -/
theorem C4_counterexample : "ikelos" ∉ get_search_variants "IKELOS_SMG_v1.0.2" := by
  decide

/-- C4 amended: `get_search_variants` returns a duplicate-free list that
contains the raw name, the base name (the prefix of the raw name before the
first occurrence of the first marker, in `version_patterns` order, detected
case-insensitively and split case-sensitively), and the normalized forms of
both; in particular the variants of `"IKELOS_SMG_v1.0.2"` include
`"IKELOS_SMG"` and its normalized form `"ikelos smg"`, not `"ikelos"`. -/
theorem C4_amended_variants (name : String) :
    (get_search_variants name).Nodup ∧
    name ∈ get_search_variants name ∧
    base_name_of name ∈ get_search_variants name ∧
    normalize_name name ∈ get_search_variants name ∧
    normalize_name (base_name_of name) ∈ get_search_variants name ∧
    "IKELOS_SMG" ∈ get_search_variants "IKELOS_SMG_v1.0.2" ∧
    "ikelos smg" ∈ get_search_variants "IKELOS_SMG_v1.0.2" := by
  refine ⟨List.nodup_dedup _, ?_, ?_, ?_, ?_, by decide, by decide⟩ <;>
    by_cases h : base_name_of name = name <;>
      simp [get_search_variants, List.mem_dedup, h]

/-! ### Claim C10: totality of the name comparison -/

/-- Auxiliary: a string of length zero is the empty string. -/
theorem string_length_zero : ∀ s : String, s.length = 0 → s = ""
  | ⟨[]⟩, _ => rfl
  | ⟨c :: cs⟩, h => by simp [String.length] at h

/-- C10: `compare_names` is total; the length-ratio division is reached only
when the two normalized names differ (in which case the longer one is
nonempty, so the denominator `max` of the lengths is positive and the
division is well defined), and two names that both normalize to the empty
string are reported as an exact match with similarity 1. -/
theorem C10_compare_names_total (n1 n2 : String) :
    (normalize_name n1 ≠ normalize_name n2 →
      0 < max (normalize_name n1).length (normalize_name n2).length) ∧
    (normalize_name n1 = "" → normalize_name n2 = "" →
      compare_names n1 n2 = (true, 1)) := by
  constructor
  · intro hne
    by_contra hmax
    push_neg at hmax
    interval_cases h : max (normalize_name n1).length (normalize_name n2).length
    · rcases Nat.max_eq_zero_iff.mp h with ⟨h1, h2⟩
      exact hne ((string_length_zero _ h1).trans (string_length_zero _ h2).symm)
  · intro h1 h2
    simp [compare_names, h1, h2]

/-- C10 witness: concrete instances of both conjuncts, the second at two
names (`"_"` and `"-"`) whose normal forms are both empty. -/
theorem C10_witness :
    0 < max (normalize_name "ab").length (normalize_name "c").length ∧
    compare_names "_" "-" = (true, 1) :=
  ⟨(C10_compare_names_total "ab" "c").1 (by decide),
   (C10_compare_names_total "_" "-").2 (by decide) (by decide)⟩

/-! ### Claim C7: RequireBothColumns with an empty column drops the weapon -/

/-- C7: when a weapon's tier maps to the both-columns policy and at least
one matched perk column is empty, `_format_weapon_rolls` returns `None`, so
the weapon is excluded from the wishlist even if the other column is
non-empty. -/
theorem C7_both_columns_empty_excluded (configs : List TierConfig)
    (w : Wishlist.WeaponRoll)
    (hpo : should_include_weapon w.tier configs = some PerkOption.BOTH_COLUMNS)
    (hcol : w.perks_column1 = [] ∨ w.perks_column2 = []) :
    format_weapon_rolls configs w = none := by
  have hcombos : all_combinations PerkOption.BOTH_COLUMNS w = [] := by
    rcases hcol with h | h <;> simp [all_combinations, h]
  simp [format_weapon_rolls, hpo, hcombos]

/-- C7 witness: tier S mapped to the both-columns policy, column 1 holds one
perk, column 2 is empty - the weapon block is `None`. -/
theorem C7_witness :
    format_weapon_rolls [⟨"S", PerkOption.BOTH_COLUMNS⟩]
      ⟨"W", 100, "T", "S", [⟨"p", 1, ""⟩], []⟩ = none :=
  C7_both_columns_empty_excluded _ _ (by decide) (Or.inr rfl)

/-! ### Claim C8: tiers absent from the policy are excluded entirely -/

/-- Auxiliary: entries that a `filterMap` sends to `none` can be removed
from its input without changing the output. -/
theorem filterMap_drop_none {α β : Type _} [DecidableEq α] (f : α → Option β)
    (w : α) (hw : f w = none) :
    ∀ l : List α, l.filterMap f = (l.filter (fun x => decide (x ≠ w))).filterMap f := by
  intro l
  induction l with
  | nil => rfl
  | cons x xs ih =>
      by_cases hxw : x = w
      · subst hxw
        simp [List.filterMap_cons, hw, List.filter_cons, ih]
      · simp [List.filterMap_cons, List.filter_cons, hxw, ih]

/-- C8: a matched weapon whose tier label is absent from the supplied tier
configs produces no block (`_format_weapon_rolls` is `None`), and removing
every copy of that weapon from the input leaves the generated wishlist
byte-identical - no header line and no roll line of that weapon occurs
anywhere in the output. -/
theorem C8_absent_tier_excluded (configs : List TierConfig)
    (ws : List Wishlist.WeaponRoll) (w : Wishlist.WeaponRoll)
    (habsent : ∀ c ∈ configs, c.tier ≠ w.tier) :
    format_weapon_rolls configs w = none ∧
    generate_dim_wishlist configs ws =
      generate_dim_wishlist configs (ws.filter (fun x => decide (x ≠ w))) := by
  have hsi : should_include_weapon w.tier configs = none := by
    rw [should_include_weapon, List.find?_eq_none.mpr]
    intro c hc
    simpa using habsent c hc
  have hfmt : format_weapon_rolls configs w = none := by
    simp [format_weapon_rolls, hsi]
  refine ⟨hfmt, ?_⟩
  simp only [generate_dim_wishlist]
  rw [← filterMap_drop_none (format_weapon_rolls configs) w hfmt ws]

/-- C8 witness: a weapon of tier `"Z"`, absent from a policy that only maps
tier `"S"`, contributes nothing to the generated wishlist. -/
theorem C8_witness :
    format_weapon_rolls [⟨"S", PerkOption.ANY_COLUMN⟩]
      ⟨"Zgun", 7, "T", "Z", [⟨"p", 1, ""⟩], []⟩ = none ∧
    generate_dim_wishlist [⟨"S", PerkOption.ANY_COLUMN⟩]
        [⟨"Zgun", 7, "T", "Z", [⟨"p", 1, ""⟩], []⟩,
         ⟨"Sgun", 8, "T", "S", [⟨"q", 2, ""⟩], []⟩] =
      generate_dim_wishlist [⟨"S", PerkOption.ANY_COLUMN⟩]
        ([⟨"Zgun", 7, "T", "Z", [⟨"p", 1, ""⟩], []⟩,
          ⟨"Sgun", 8, "T", "S", [⟨"q", 2, ""⟩], []⟩].filter
          (fun x => decide (x ≠ ⟨"Zgun", 7, "T", "Z", [⟨"p", 1, ""⟩], []⟩))) :=
  C8_absent_tier_excluded _ _ _ (by decide)

/-! ### Claim C5: perk names are bisected by position, not by sheet column -/

/-- Auxiliary: the perk list a sheet row contributes is the concatenation of
the parsed column-1 cell and the parsed column-2 cell. -/
theorem row_perks_eq (c1 c2 : String) :
    Sheets.row_perks c1 c2 = Sheets.parse_perks c1 ++ Sheets.parse_perks c2 := by
  by_cases h1 : c1 = "" <;> by_cases h2 : c2 = "" <;>
    simp [Sheets.row_perks, Sheets.parse_perks, h1, h2]

/-- C5: for a raw entry whose combined ordered perk list
`P = parse_perks(column1 cell) ++ parse_perks(column2 cell)` has length `n`,
`match_weapon` (when the weapon itself resolves) attempts perk resolution
for output column 1 on exactly the first `n / 2` names of `P` in order and
for output column 2 on exactly the remaining names in order, irrespective
of which sheet column each name came from. -/
theorem C5_perk_bisection (catalog : List ItemDef) (st : MatcherState)
    (nm tier c1 c2 : String)
    (hmatch : (find_weapon_matches catalog st nm).1 ≠ []) :
    (match_weapon catalog st ⟨nm, tier, Sheets.row_perks c1 c2⟩).2.2.1 =
      (Sheets.parse_perks c1 ++ Sheets.parse_perks c2).take
        ((Sheets.parse_perks c1 ++ Sheets.parse_perks c2).length / 2) ∧
    (match_weapon catalog st ⟨nm, tier, Sheets.row_perks c1 c2⟩).2.2.2 =
      (Sheets.parse_perks c1 ++ Sheets.parse_perks c2).drop
        ((Sheets.parse_perks c1 ++ Sheets.parse_perks c2).length / 2) := by
  constructor <;> simp [match_weapon, hmatch, row_perks_eq]

/-- C5 witness: sheet column 1 holds `"A"` and `"B"`, sheet column 2 holds
`"C"`; the combined list has length 3, so output column 1 attempts exactly
`["A"]` and output column 2 attempts `["B", "C"]` - `"B"` migrates columns. -/
theorem C5_witness :
    (match_weapon [⟨5, "Foo", "", none, none, some "Auto Rifle"⟩] initState
        ⟨"Foo", "S", Sheets.row_perks "A\nB" "C"⟩).2.2.1 = ["A"] ∧
    (match_weapon [⟨5, "Foo", "", none, none, some "Auto Rifle"⟩] initState
        ⟨"Foo", "S", Sheets.row_perks "A\nB" "C"⟩).2.2.2 = ["B", "C"] := by
  have h := C5_perk_bisection [⟨5, "Foo", "", none, none, some "Auto Rifle"⟩]
    initState "Foo" "S" "A\nB" "C" (by decide)
  exact ⟨h.1.trans (by decide), h.2.trans (by decide)⟩

/-! ### Claim C1: shape of an emitted weapon block -/

/-- C1 counterexample: with tier S mapped to the any-column policy and one
column-1 perk, the emitted block's roll line is
`dimwishlist:item=100&perks=1` - it carries the `dimwishlist:` prefix, so
the block is not the claimed header plus bare `item=...` lines. -/
theorem C1_counterexample :
    format_weapon_rolls [⟨"S", PerkOption.ANY_COLUMN⟩]
        ⟨"Weapon", 100, "T", "S", [⟨"P", 1, ""⟩], []⟩ =
      some "Weapon - Tier: S\ndimwishlist:item=100&perks=1\n" ∧
    "Weapon - Tier: S\ndimwishlist:item=100&perks=1\n" ≠
      "Weapon - Tier: S\nitem=100&perks=1\n" := by
  constructor
  · decide
  · decide

/-- Auxiliary: membership in `sortedSet` is membership in the underlying
list. -/
theorem mem_sortedSet (x : String) (l : List String) :
    x ∈ sortedSet l ↔ x ∈ l := by
  rw [sortedSet, mem_stableSort, List.mem_dedup]

/-- Auxiliary: every combination string is a single-perk line over a perk of
one of the two columns or a two-perk line over the column product. -/
theorem combos_sound (po : PerkOption) (w : Wishlist.WeaponRoll) (line : String)
    (h : line ∈ all_combinations po w) :
    (∃ p ∈ w.perks_column1 ++ w.perks_column2,
        line = "dimwishlist:item=" ++ toString w.hash ++ "&perks=" ++
          toString p.hash) ∨
    (∃ p1 ∈ w.perks_column1, ∃ p2 ∈ w.perks_column2,
        line = "dimwishlist:item=" ++ toString w.hash ++ "&perks=" ++
          toString p1.hash ++ "," ++ toString p2.hash) := by
  rcases List.mem_append.mp h with h | h
  · left
    by_cases hcond : po = PerkOption.ANY_COLUMN ∨ po = PerkOption.ANY_PERKS
    · rw [if_pos hcond] at h
      rcases List.mem_append.mp h with h | h
      · obtain ⟨p, hp, rfl⟩ := List.mem_map.mp h
        exact ⟨p, List.mem_append.mpr (Or.inl hp), rfl⟩
      · obtain ⟨p, hp, rfl⟩ := List.mem_map.mp h
        exact ⟨p, List.mem_append.mpr (Or.inr hp), rfl⟩
    · rw [if_neg hcond] at h
      exact absurd h (List.not_mem_nil _)
  · right
    by_cases hcond : w.perks_column1 ≠ [] ∧ w.perks_column2 ≠ []
    · rw [if_pos hcond] at h
      obtain ⟨p1, hp1, h2⟩ := List.mem_flatMap.mp h
      obtain ⟨p2, hp2, rfl⟩ := List.mem_map.mp h2
      exact ⟨p1, hp1, p2, hp2, rfl⟩
    · rw [if_neg hcond] at h
      exact absurd h (List.not_mem_nil _)

/-- Auxiliary: the two-perk line of any column-1/column-2 perk pair is in the
combination set. -/
theorem pair_line_mem_combos (po : PerkOption) (w : Wishlist.WeaponRoll)
    (p1 : Wishlist.Perk) (hp1 : p1 ∈ w.perks_column1)
    (p2 : Wishlist.Perk) (hp2 : p2 ∈ w.perks_column2) :
    "dimwishlist:item=" ++ toString w.hash ++ "&perks=" ++ toString p1.hash ++
        "," ++ toString p2.hash ∈ all_combinations po w := by
  refine List.mem_append.mpr (Or.inr ?_)
  rw [if_pos ⟨List.ne_nil_of_mem hp1, List.ne_nil_of_mem hp2⟩]
  exact List.mem_flatMap.mpr ⟨p1, hp1, List.mem_map.mpr ⟨p2, hp2, rfl⟩⟩

/-- Auxiliary: under the any-column or any-perks policy, the single-perk
line of every perk of either column is in the combination set. -/
theorem single_line_mem_combos (po : PerkOption) (w : Wishlist.WeaponRoll)
    (hpo : po = PerkOption.ANY_COLUMN ∨ po = PerkOption.ANY_PERKS)
    (p : Wishlist.Perk) (hp : p ∈ w.perks_column1 ++ w.perks_column2) :
    "dimwishlist:item=" ++ toString w.hash ++ "&perks=" ++ toString p.hash ∈
      all_combinations po w := by
  refine List.mem_append.mpr (Or.inl ?_)
  rw [if_pos hpo]
  rcases List.mem_append.mp hp with h | h
  · exact List.mem_append.mpr (Or.inl (List.mem_map.mpr ⟨p, h, rfl⟩))
  · exact List.mem_append.mpr (Or.inr (List.mem_map.mpr ⟨p, h, rfl⟩))

/-- C1 amended: every emitted weapon block is the header line
`"<name> - Tier: <tier>"` followed by one line per accepted combination,
each line exactly of the form `dimwishlist:item=<hash>`,
`dimwishlist:item=<hash>&perks=<perkHash>` (for a perk of either column) or
`dimwishlist:item=<hash>&perks=<perkHash1>,<perkHash2>` (for a column-1 x
column-2 pair); conversely every column pair always yields its two-perk
line, every perk yields its single-perk line under the any-column and
any-perks policies, and the bare line is present under the any-perks
policy. -/
theorem C1_amended_block_format (configs : List TierConfig)
    (w : Wishlist.WeaponRoll) (po : PerkOption) (s : String)
    (hpo : should_include_weapon w.tier configs = some po)
    (hfmt : format_weapon_rolls configs w = some s) :
    ∃ rest : List String,
      s = pyJoin "\n" ((w.name ++ " - Tier: " ++ w.tier) :: rest) ++ "\n" ∧
      (∀ line ∈ rest, line = "dimwishlist:item=" ++ toString w.hash ∨
        (∃ p ∈ w.perks_column1 ++ w.perks_column2,
          line = "dimwishlist:item=" ++ toString w.hash ++ "&perks=" ++
            toString p.hash) ∨
        (∃ p1 ∈ w.perks_column1, ∃ p2 ∈ w.perks_column2,
          line = "dimwishlist:item=" ++ toString w.hash ++ "&perks=" ++
            toString p1.hash ++ "," ++ toString p2.hash)) ∧
      (∀ p1 ∈ w.perks_column1, ∀ p2 ∈ w.perks_column2,
        "dimwishlist:item=" ++ toString w.hash ++ "&perks=" ++
          toString p1.hash ++ "," ++ toString p2.hash ∈ rest) ∧
      ((po = PerkOption.ANY_COLUMN ∨ po = PerkOption.ANY_PERKS) →
        ∀ p ∈ w.perks_column1 ++ w.perks_column2,
          "dimwishlist:item=" ++ toString w.hash ++ "&perks=" ++
            toString p.hash ∈ rest) ∧
      (po = PerkOption.ANY_PERKS →
        "dimwishlist:item=" ++ toString w.hash ∈ rest) := by
  simp only [format_weapon_rolls, hpo] at hfmt
  by_cases hc : all_combinations po w = []
  · rw [if_neg (fun hne => hne hc)] at hfmt
    by_cases hap : po = PerkOption.ANY_PERKS
    · rw [if_pos hap, Option.some.injEq] at hfmt
      refine ⟨["dimwishlist:item=" ++ toString w.hash], ?_, ?_, ?_, ?_, ?_⟩
      · rw [← hfmt, hap]
        simp
      · intro line hline
        rcases List.mem_singleton.mp hline with rfl
        exact Or.inl rfl
      · intro p1 hp1 p2 hp2
        exact absurd (pair_line_mem_combos po w p1 hp1 p2 hp2)
          (by rw [hc]; exact List.not_mem_nil _)
      · intro hpo' p hp
        exact absurd (single_line_mem_combos po w hpo' p hp)
          (by rw [hc]; exact List.not_mem_nil _)
      · intro _
        exact List.mem_singleton.mpr rfl
    · rw [if_neg hap] at hfmt
      exact absurd hfmt (by simp)
  · rw [if_pos hc] at hfmt
    rw [Option.some.injEq] at hfmt
    refine ⟨(if po = PerkOption.ANY_PERKS then
        ["dimwishlist:item=" ++ toString w.hash] else []) ++
        sortedSet (all_combinations po w), ?_, ?_, ?_, ?_, ?_⟩
    · rw [← hfmt]
      simp
    · intro line hline
      rcases List.mem_append.mp hline with h | h
      · left
        by_cases hap : po = PerkOption.ANY_PERKS
        · rw [if_pos hap] at h
          exact List.mem_singleton.mp h
        · rw [if_neg hap] at h
          exact absurd h (List.not_mem_nil _)
      · exact Or.inr (combos_sound po w line ((mem_sortedSet _ _).mp h))
    · intro p1 hp1 p2 hp2
      exact List.mem_append.mpr (Or.inr
        ((mem_sortedSet _ _).mpr (pair_line_mem_combos po w p1 hp1 p2 hp2)))
    · intro hpo' p hp
      exact List.mem_append.mpr (Or.inr
        ((mem_sortedSet _ _).mpr (single_line_mem_combos po w hpo' p hp)))
    · intro hap
      rw [if_pos hap]
      exact List.mem_append.mpr (Or.inl (List.mem_singleton.mpr rfl))

/-- C1 witness: the amended block-shape theorem applied to a concrete weapon
(hash 100, one perk in each column) under the any-column policy. -/
theorem C1_witness :
    ∃ rest : List String,
      ("Weapon - Tier: S\ndimwishlist:item=100&perks=1\ndimwishlist:item=100&perks=1,3\ndimwishlist:item=100&perks=3\n" : String) =
        pyJoin "\n" ((("Weapon" : String) ++ " - Tier: " ++ "S") :: rest) ++ "\n" ∧
      (∀ line ∈ rest, line = "dimwishlist:item=" ++ toString (100 : Nat) ∨
        (∃ p ∈ ([⟨"P", 1, ""⟩] : List Wishlist.Perk) ++ [⟨"Q", 3, ""⟩],
          line = "dimwishlist:item=" ++ toString (100 : Nat) ++ "&perks=" ++
            toString p.hash) ∨
        (∃ p1 ∈ ([⟨"P", 1, ""⟩] : List Wishlist.Perk),
          ∃ p2 ∈ ([⟨"Q", 3, ""⟩] : List Wishlist.Perk),
          line = "dimwishlist:item=" ++ toString (100 : Nat) ++ "&perks=" ++
            toString p1.hash ++ "," ++ toString p2.hash)) ∧
      (∀ p1 ∈ ([⟨"P", 1, ""⟩] : List Wishlist.Perk),
        ∀ p2 ∈ ([⟨"Q", 3, ""⟩] : List Wishlist.Perk),
        "dimwishlist:item=" ++ toString (100 : Nat) ++ "&perks=" ++
          toString p1.hash ++ "," ++ toString p2.hash ∈ rest) ∧
      ((PerkOption.ANY_COLUMN = PerkOption.ANY_COLUMN ∨
          PerkOption.ANY_COLUMN = PerkOption.ANY_PERKS) →
        ∀ p ∈ ([⟨"P", 1, ""⟩] : List Wishlist.Perk) ++ [⟨"Q", 3, ""⟩],
          "dimwishlist:item=" ++ toString (100 : Nat) ++ "&perks=" ++
            toString p.hash ∈ rest) ∧
      (PerkOption.ANY_COLUMN = PerkOption.ANY_PERKS →
        "dimwishlist:item=" ++ toString (100 : Nat) ∈ rest) :=
  C1_amended_block_format [⟨"S", PerkOption.ANY_COLUMN⟩]
    ⟨"Weapon", 100, "T", "S", [⟨"P", 1, ""⟩], [⟨"Q", 3, ""⟩]⟩
    PerkOption.ANY_COLUMN _ (by decide) (by decide)

/-! ### Facts about the scoring stage shared by claims C3 and C6 -/

/-- Auxiliary: every scored tuple carries the comparison result of its own
item as its key. -/
theorem scoreFilter_snd (nm : String) (θ : ℚ) (pool : List ItemDef) :
    ∀ t ∈ scoreFilter nm θ pool, t.2 = compare_names nm t.1.name := by
  intro t ht
  simp only [scoreFilter, List.mem_filterMap] at ht
  obtain ⟨m, hm, hf⟩ := ht
  split at hf
  · rw [Option.some.injEq] at hf
    rw [← hf]
  · exact absurd hf (by simp)

/-- Auxiliary: an item appears among the scored tuples iff it is in the pool
and passes the `exact or similarity > θ` test. -/
theorem mem_scoreFilter (nm : String) (θ : ℚ) (pool : List ItemDef)
    (it : ItemDef) :
    (∃ t ∈ scoreFilter nm θ pool, t.1 = it) ↔
      it ∈ pool ∧ ((compare_names nm it.name).1 ||
        decide ((compare_names nm it.name).2 > θ)) = true := by
  constructor
  · rintro ⟨t, ht, hteq⟩
    simp only [scoreFilter, List.mem_filterMap] at ht
    obtain ⟨m, hm, hf⟩ := ht
    split at hf
    case isTrue hcond =>
      rw [Option.some.injEq] at hf
      rw [← hf] at hteq
      simp only at hteq
      rw [← hteq]
      exact ⟨hm, hcond⟩
    case isFalse => exact absurd hf (by simp)
  · rintro ⟨hpool, hcond⟩
    refine ⟨(it, (compare_names nm it.name).1, (compare_names nm it.name).2),
      List.mem_filterMap.mpr ⟨it, hpool, ?_⟩, rfl⟩
    simp only [scoreFilter]
    rw [if_pos hcond]

/-- Auxiliary: the threshold test of the code is equivalent to the retention
condition as the spec words it, for any positive threshold. -/
theorem retain_iff (raw disp : String) (θ : ℚ) (hθ : 0 < θ) :
    ((compare_names raw disp).1 ||
        decide ((compare_names raw disp).2 > θ)) = true ↔
      spec_retain raw disp θ := by
  unfold compare_names spec_retain
  by_cases heq : normalize_name raw = normalize_name disp
  · simp [heq]
  · by_cases hsub : (isSubB (normalize_name raw) (normalize_name disp) ||
        isSubB (normalize_name disp) (normalize_name raw)) = true
    · simp [heq, hsub]
    · simp [heq, hsub, lt_asymm hθ]

/-- Auxiliary: a key that is not lexicographically below another and has an
exact second key is exact itself. -/
theorem keyLT_false_exact (x y : Bool × ℚ) (h : keyLT x y = false)
    (hy : y.1 = true) : x.1 = true := by
  rcases x with ⟨b1, q1⟩
  rcases y with ⟨b2, q2⟩
  simp only at hy
  subst hy
  cases b1
  · simp [keyLT] at h
  · rfl

/-- Auxiliary: the sorted, scored output of either finder is descending in
the `(exact, similarity)` key, and filtering it to any fixed key value gives
exactly the pool-ordered retained items with that key - the sort is stable,
so equal keys keep their first-appearance order. -/
theorem scored_sort_props (nm : String) (θ : ℚ) (pool : List ItemDef) :
    List.Pairwise (fun a b =>
        keyLT (compare_names nm a.name) (compare_names nm b.name) = false)
      ((stableSort scoredPrec (scoreFilter nm θ pool)).map (fun t => t.1)) ∧
    ∀ k : Bool × ℚ,
      ((stableSort scoredPrec (scoreFilter nm θ pool)).map (fun t => t.1)).filter
          (fun it => decide (compare_names nm it.name = k)) =
        ((scoreFilter nm θ pool).map (fun t => t.1)).filter
          (fun it => decide (compare_names nm it.name = k)) := by
  have hsnd := scoreFilter_snd nm θ pool
  have hsorted := pairwise_stableSort scoredPrec scoredPrec_asymm
    scoredPrec_negtrans (scoreFilter nm θ pool)
  constructor
  · rw [List.pairwise_map]
    refine List.Pairwise.imp_of_mem ?_ hsorted
    intro a b ha hb h
    rw [← hsnd a ((mem_stableSort _ _ _).mp ha),
      ← hsnd b ((mem_stableSort _ _ _).mp hb)]
    exact h
  · intro k
    have hcongr : ∀ L : List (ItemDef × Bool × ℚ),
        (∀ t ∈ L, t.2 = compare_names nm t.1.name) →
        (L.map (fun t => t.1)).filter
            (fun it => decide (compare_names nm it.name = k)) =
          (L.filter (fun t => decide (t.2 = k))).map (fun t => t.1) := by
      intro L hL
      rw [List.filter_map]
      congr 1
      refine List.filter_congr ?_
      intro t ht
      simp only [Function.comp]
      rw [hL t ht]
    have hmem : ∀ t ∈ stableSort scoredPrec (scoreFilter nm θ pool),
        t.2 = compare_names nm t.1.name := by
      intro t ht
      exact hsnd t ((mem_stableSort _ _ _).mp ht)
    rw [hcongr _ hmem, hcongr _ hsnd]
    congr 1
    refine filter_stableSort scoredPrec _ ?_ _
    intro x y hx hy
    rw [decide_eq_true_eq] at hx hy
    unfold scoredPrec
    rw [hx, hy]
    exact keyLT_irrefl k

/-! ### Claim C3: candidate ordering -/

/-- C3 counterexample: catalog order holds hash 5 before hash 3, both items
named exactly like the query, so both retained candidates have equal keys
`(true, 1)`; the finder returns them as `[5, 3]`, preserving accumulation
order - not `[3, 5]` as hash-ascending tie-breaking would require. -/
theorem C3_counterexample :
    ((find_weapon_matches [⟨5, "Foo", "", none, none, some "Auto Rifle"⟩,
        ⟨3, "Foo", "", none, none, some "Auto Rifle"⟩] initState
        "Foo").1.map ItemDef.hash = [5, 3]) ∧
    ((find_weapon_matches [⟨5, "Foo", "", none, none, some "Auto Rifle"⟩,
        ⟨3, "Foo", "", none, none, some "Auto Rifle"⟩] initState
        "Foo").1.map (fun it => compare_names "Foo" it.name) =
      [(true, 1), (true, 1)]) ∧
    (3 : Nat) < 5 := by
  refine ⟨by decide, by decide, by decide⟩

/-- C3 amended: both finders return their retained candidates sorted
descending by the `(exactMatch, similarity)` key - every exact match
precedes every non-exact match regardless of similarity - and candidates
with equal keys keep the order of their first appearance in the accumulated
(hash-deduplicated) search results, because the sort is stable; they are
not reordered by catalog hash. -/
theorem C3_amended_sort_stable (catalog : List ItemDef) (nm : String) :
    (List.Pairwise (fun a b =>
        keyLT (compare_names nm a.name) (compare_names nm b.name) = false)
        (find_weapon_matches catalog initState nm).1 ∧
      List.Pairwise (fun a b =>
        (compare_names nm b.name).1 = true → (compare_names nm a.name).1 = true)
        (find_weapon_matches catalog initState nm).1 ∧
      ∀ k : Bool × ℚ,
        (find_weapon_matches catalog initState nm).1.filter
            (fun it => decide (compare_names nm it.name = k)) =
          ((weapon_scored catalog nm).map (fun t => t.1)).filter
            (fun it => decide (compare_names nm it.name = k))) ∧
    (List.Pairwise (fun a b =>
        keyLT (compare_names nm a.name) (compare_names nm b.name) = false)
        (find_perk_matches catalog initState nm).1 ∧
      List.Pairwise (fun a b =>
        (compare_names nm b.name).1 = true → (compare_names nm a.name).1 = true)
        (find_perk_matches catalog initState nm).1 ∧
      ∀ k : Bool × ℚ,
        (find_perk_matches catalog initState nm).1.filter
            (fun it => decide (compare_names nm it.name = k)) =
          ((perk_scored catalog nm).map (fun t => t.1)).filter
            (fun it => decide (compare_names nm it.name = k))) := by
  have hw : (find_weapon_matches catalog initState nm).1 =
      (stableSort scoredPrec (scoreFilter nm (4 / 5)
        (weapon_pool catalog nm))).map (fun t => t.1) := by
    simp [find_weapon_matches, initState, weapon_scored]
  have hp : (find_perk_matches catalog initState nm).1 =
      (stableSort scoredPrec (scoreFilter nm (9 / 10)
        (perk_pool catalog nm))).map (fun t => t.1) := by
    simp [find_perk_matches, initState, perk_scored]
  have hwp := scored_sort_props nm (4 / 5) (weapon_pool catalog nm)
  have hpp := scored_sort_props nm (9 / 10) (perk_pool catalog nm)
  refine ⟨⟨?_, ?_, ?_⟩, ?_, ?_, ?_⟩
  · rw [hw]; exact hwp.1
  · rw [hw]
    exact hwp.1.imp (fun h hy => keyLT_false_exact _ _ h hy)
  · intro k
    rw [hw, weapon_scored]
    exact hwp.2 k
  · rw [hp]; exact hpp.1
  · rw [hp]
    exact hpp.1.imp (fun h hy => keyLT_false_exact _ _ h hy)
  · intro k
    rw [hp, perk_scored]
    exact hpp.2 k

/-! ### Claim C6: retention condition -/

/-- C6: a candidate from the accumulated pool is retained by the weapon
finder iff its comparison against the raw name yields an exact normalized
match or a similarity strictly above 0.8, and by the perk finder with
threshold 0.9, where similarity is 1 for equal normal forms, the length
ratio `min/max` when one normal form is a substring of the other, and 0
otherwise - exactly the `spec_retain` condition. -/
theorem C6_retention_thresholds (catalog : List ItemDef) (nm : String)
    (it : ItemDef) :
    (it ∈ (find_weapon_matches catalog initState nm).1 ↔
      it ∈ weapon_pool catalog nm ∧ spec_retain nm it.name (4 / 5)) ∧
    (it ∈ (find_perk_matches catalog initState nm).1 ↔
      it ∈ perk_pool catalog nm ∧ spec_retain nm it.name (9 / 10)) := by
  have hw : (find_weapon_matches catalog initState nm).1 =
      (stableSort scoredPrec (scoreFilter nm (4 / 5)
        (weapon_pool catalog nm))).map (fun t => t.1) := by
    simp [find_weapon_matches, initState, weapon_scored]
  have hp : (find_perk_matches catalog initState nm).1 =
      (stableSort scoredPrec (scoreFilter nm (9 / 10)
        (perk_pool catalog nm))).map (fun t => t.1) := by
    simp [find_perk_matches, initState, perk_scored]
  constructor
  · rw [hw, List.mem_map]
    constructor
    · rintro ⟨t, ht, hteq⟩
      have hchar := (mem_scoreFilter nm (4 / 5) (weapon_pool catalog nm) it).mp
        ⟨t, (mem_stableSort _ _ _).mp ht, hteq⟩
      exact ⟨hchar.1, (retain_iff nm it.name (4 / 5) (by norm_num)).mp hchar.2⟩
    · rintro ⟨hpool, hret⟩
      obtain ⟨t, ht, hteq⟩ := (mem_scoreFilter nm (4 / 5)
        (weapon_pool catalog nm) it).mpr
        ⟨hpool, (retain_iff nm it.name (4 / 5) (by norm_num)).mpr hret⟩
      exact ⟨t, (mem_stableSort _ _ _).mpr ht, hteq⟩
  · rw [hp, List.mem_map]
    constructor
    · rintro ⟨t, ht, hteq⟩
      have hchar := (mem_scoreFilter nm (9 / 10) (perk_pool catalog nm) it).mp
        ⟨t, (mem_stableSort _ _ _).mp ht, hteq⟩
      exact ⟨hchar.1, (retain_iff nm it.name (9 / 10) (by norm_num)).mp hchar.2⟩
    · rintro ⟨hpool, hret⟩
      obtain ⟨t, ht, hteq⟩ := (mem_scoreFilter nm (9 / 10)
        (perk_pool catalog nm) it).mpr
        ⟨hpool, (retain_iff nm it.name (9 / 10) (by norm_num)).mpr hret⟩
      exact ⟨t, (mem_stableSort _ _ _).mpr ht, hteq⟩

end DimAegis
